import Mathlib

/-!
Verification of the SSCore nearby-star catalog import pipeline.

This file gives a shallow embedding, in Lean 4, of the catalog import code
of the SSCore repository (SSObject.cpp, SSCode/SSImportGJ.cpp,
SSCode/SSUtilities.cpp), and proves or refutes the specification claims
about it.  Machine floating-point values are modelled by exact rationals
(`ℚ`, with `WithTop` for the IEEE `INFINITY` / `HUGE_VAL` sentinel) where
the code is purely data-flow, and by real numbers (`ℝ`) where trigonometry
is involved.  C++ heap allocation, where a claim is about aliasing, is
modelled by an explicit heap (a list of cells) and addresses.
-/

namespace SSCore

/-! ### String scanning utilities (SSUtilities.cpp)

`strtodeg` calls `sscanf(cstr, "%lf %lf %lf", ...)`.  We model the C
`%lf` conversion (`strtod` on decimal forms): skip whitespace, optional
sign, an integer digit run, an optional fractional part, an optional
decimal exponent.  Exact rational arithmetic stands in for IEEE rounding;
the hexadecimal, `inf` and `nan` forms of `strtod`, which never occur in
catalog data, are not modelled. -/

/-- Whitespace characters recognised by `isspace` in the C locale. -/
def isCSpace (c : Char) : Bool :=
  c = ' ' || c = '\t' || c = '\n' || c = '\x0b' || c = '\x0c' || c = '\r'

/-- Decimal digit test. -/
def isCDigit (c : Char) : Bool :=
  '0' ≤ c && c ≤ '9'

/-- Numeric value of a decimal digit character. -/
def digitVal (c : Char) : ℕ :=
  c.toNat - '0'.toNat

/-- Scan a run of decimal digits, returning the accumulated value, the
number of digits consumed, and the remaining characters. -/
def scanDigits : List Char → ℕ → ℕ → ℕ × ℕ × List Char
  | [], acc, n => (acc, n, [])
  | c :: cs, acc, n =>
    if isCDigit c then scanDigits cs (10 * acc + digitVal c) (n + 1)
    else (acc, n, c :: cs)

/-- Scan an optional sign, returning the sign factor and the rest. -/
def scanSign : List Char → ℚ × List Char
  | [] => (1, [])
  | c :: cs =>
    if c = '+' then (1, cs)
    else if c = '-' then (-1, cs)
    else (1, c :: cs)

/-- Scan an optional decimal exponent part (`e`/`E`, optional sign, digit
run).  If the exponent is malformed, `strtod` backtracks: no characters
are consumed and the factor is 1. -/
def scanExp (cs : List Char) : ℚ × List Char :=
  match cs with
  | [] => (1, [])
  | c :: rest =>
    if c = 'e' ∨ c = 'E' then
      let s := scanSign rest
      let d := scanDigits s.2 0 0
      if d.2.1 = 0 then (1, c :: rest)
      else ((10 : ℚ) ^ (s.1.num * (d.1 : ℤ)), d.2.2)
    else (1, c :: rest)

/-- Model of one C `%lf` conversion: skip whitespace, optional sign,
digits, optional `.` and fraction digits, optional exponent.  Returns
`none` (conversion failure) when no digit is present. -/
def scanFloat (cs : List Char) : Option (ℚ × List Char) :=
  let cs1 := cs.dropWhile isCSpace
  let sgn := scanSign cs1
  let ipp := scanDigits sgn.2 0 0
  let frac : ℕ × ℕ × List Char :=
    match ipp.2.2 with
    | [] => (0, 0, [])
    | c :: cs3' => if c = '.' then scanDigits cs3' 0 0 else (0, 0, c :: cs3')
  if ipp.2.1 + frac.2.1 = 0 then none
  else
    let ef := scanExp frac.2.2
    some (sgn.1 * ((ipp.1 : ℚ) + (frac.1 : ℚ) / (10 : ℚ) ^ frac.2.1) * ef.1, ef.2)

/-- Model of `sscanf(cstr, "%lf %lf %lf", &deg, &min, &sec)`: the three
variables start at 0 and conversion stops at the first failure, leaving
later variables untouched. -/
def scan3 (s : String) : ℚ × ℚ × ℚ :=
  match scanFloat s.data with
  | none => (0, 0, 0)
  | some (d, r1) =>
    match scanFloat r1 with
    | none => (d, 0, 0)
    | some (m, r2) =>
      match scanFloat r2 with
      | none => (d, m, 0)
      | some (sec, _) => (d, m, sec)

/-- Embedding of `strtodeg` (SSUtilities.cpp): scan up to three numbers,
combine as `fabs(deg) + min/60 + sec/3600`, and negate the whole value
exactly when the first character of the string is a minus sign. -/
def strtodeg (s : String) : ℚ :=
  let t := scan3 s
  let d := |t.1| + t.2.1 / 60 + t.2.2 / 3600
  match s.data with
  | [] => d
  | c :: _ => if c = '-' then -d else d

/-- Embedding of `strtofloat` / `strtofloat64` (SSUtilities.cpp): C
`strtod`, returning 0 when the string cannot be converted. -/
def strtofloat (s : String) : ℚ :=
  match scanFloat s.data with
  | none => 0
  | some (v, _) => v

/-- Embedding of `strtoint` (SSUtilities.cpp): C `atoi` — skip
whitespace, optional sign, decimal digits; 0 on failure. -/
def strtoint (s : String) : ℤ :=
  let cs1 := s.data.dropWhile isCSpace
  let (sign, cs2) := scanSign cs1
  let (ip, _, _) := scanDigits cs2 0 0
  sign.num * ip

/-- Embedding of `trim` (SSUtilities.cpp): strip the characters of
`" \t\r\n"` from both ends of the string. -/
def isTrimChar (c : Char) : Bool :=
  c = ' ' || c = '\t' || c = '\r' || c = '\n'

/-- Embedding of `trim` (SSUtilities.cpp). -/
def trim (s : String) : String :=
  String.mk (((s.data.dropWhile isTrimChar).reverse.dropWhile isTrimChar).reverse)

/-- Model of `std::string::substr(pos, count)` in the guarded uses of
the import code: take `count` characters starting at byte `pos` (all callers
check the line length first, so the out-of-range throw cannot fire). -/
def substr (s : String) (pos count : Nat) : String :=
  String.mk ((s.data.drop pos).take count)

/-! ### Identifier model

`SSIdentifier` lives in SSIdentifier.hpp/.cpp, which is outside the
analyzed slice.  Modelled from the spec: an identifier is "a tagged
variant \x7bcatalog tag, payload\x7d, constructed by a free-function parser
that tries known prefix patterns in a fixed priority order", with
equality, a total order "primarily by catalog tag, secondarily by
payload", and a validity test under which "an identifier parsed from an
empty/unrecognized token is invalid". -/

/-- Catalog tags (an enumeration in SSIdentifier.hpp); tag 0 is the
"unknown" tag carried by invalid identifiers. -/
abbrev SSCatalog := Nat

def kCatUnknown : SSCatalog := 0
def kCatGJ : SSCatalog := 1
def kCatHD : SSCatalog := 2
def kCatDM : SSCatalog := 3
def kCatHIP : SSCatalog := 4
def kCatBayer : SSCatalog := 5
def kCatFlamsteed : SSCatalog := 6
def kCatGCVS : SSCatalog := 7

/-- Modelled from the spec: an identifier as a catalog tag plus an opaque
payload (the remainder of the parsed token). -/
structure SSIdentifier where
  cat : SSCatalog
  payload : String
deriving DecidableEq

/-- Modelled from the spec: the invalid identifier (`SSIdentifier()`),
whose boolean test is false. -/
def SSIdentifier.invalid : SSIdentifier := ⟨kCatUnknown, ""⟩

/-- Modelled from the spec: `operator bool` — an identifier is valid iff
its catalog tag is a recognised one. -/
def SSIdentifier.isValid (i : SSIdentifier) : Bool :=
  i.cat ≠ kCatUnknown

/-- Modelled from the spec: `SSIdentifier::fromString` tries known prefix
patterns in a fixed priority order and returns the invalid identifier on
an empty or unrecognised token.  Only the prefixes exercised by
the import code under analysis are modelled. -/
def SSIdentifier.fromString (s : String) : SSIdentifier :=
  if s.data.take 3 = ['G', 'J', ' '] then ⟨kCatGJ, String.mk (s.data.drop 3)⟩
  else if s.data.take 3 = ['H', 'D', ' '] then ⟨kCatHD, String.mk (s.data.drop 3)⟩
  else if s.data.take 4 = ['H', 'I', 'P', ' '] then ⟨kCatHIP, String.mk (s.data.drop 4)⟩
  else if s.data.take 2 = ['B', 'D'] then ⟨kCatDM, String.mk (s.data.drop 2)⟩
  else SSIdentifier.invalid

/-- Modelled from the spec: a numeric-payload constructor such as
`SSIdentifier ( kCatHD, number )`. -/
def SSIdentifier.ofCat (cat : SSCatalog) (n : ℤ) : SSIdentifier :=
  ⟨cat, toString n⟩

/-- Modelled from the spec: the identifier total order, "primarily by
catalog tag, secondarily by payload" (`compareSSIdentifiers`). -/
def identLE (a b : SSIdentifier) : Bool :=
  a.cat < b.cat || (a.cat = b.cat && !(b.payload < a.payload))

/-- Insertion step of the identifier sort. -/
def identInsert (x : SSIdentifier) : List SSIdentifier → List SSIdentifier
  | [] => [x]
  | y :: ys => if identLE x y then x :: y :: ys else y :: identInsert x ys

/-- Sorting an identifier list by the identifier total order
(`sort ( idents.begin(), idents.end(), compareSSIdentifiers )` and
`SSStar::sortIdentifiers`). -/
def identSort : List SSIdentifier → List SSIdentifier
  | [] => []
  | x :: xs => identInsert x (identSort xs)

/-- Modelled from the spec: `SSAddIdentifier ( ident, idents )` — the
"add if not already present" operation, which refuses invalid
identifiers ("an identifier parsed from an empty/unrecognized token ...
must never be inserted into an identifier set"). -/
def SSAddIdentifier (ident : SSIdentifier) (idents : List SSIdentifier) : List SSIdentifier :=
  if ident.isValid && !(idents.contains ident) then idents ++ [ident] else idents

/-! ### Angular position, kinematic state, and stellar entries

`SSSpherical` and `SSStar` live outside the analyzed slice
(SSVector.hpp, SSStar.hpp); their data content is modelled from the
spec's data model: an Angular Position is a (lon, lat, rad) triple and a
Kinematic State a parallel triple, with "infinite" (`⊤`) the sentinel
for "not measured"; a Stellar Entry carries an identifier set, names,
position + kinematic state, V and B magnitudes, and a spectral type.
The scalar type `α` is `ℚ` for exact data-flow claims and `ℝ` where
the import pipeline applies trigonometry. -/

structure SSSpherical (α : Type) where
  lon : WithTop α
  lat : WithTop α
  rad : WithTop α
deriving DecidableEq

/-- Model of the C `isinf` test on a field using the `⊤` sentinel for
`INFINITY` / `HUGE_VAL`. -/
def isinf {α : Type} : WithTop α → Bool
  | ⊤ => true
  | (_ : α) => false

/-- Modelled from the spec: the Stellar Entry record.  `parallax` backs
`SSStar::getParallax` used by `SSImportGJAC`. -/
structure SSStar (α : Type) where
  names : List String
  idents : List SSIdentifier
  coords : SSSpherical α
  motion : SSSpherical α
  vmag : WithTop α
  bmag : WithTop α
  parallax : WithTop α
  specType : String
deriving DecidableEq

/-- Modelled from the spec: `SSStar::getIdentifier ( cat )` returns the
entry's identifier under catalog tag `cat`, or the invalid identifier
when the entry has none. -/
def SSStar.getIdentifier {α : Type} (s : SSStar α) (cat : SSCatalog) : SSIdentifier :=
  match s.idents.find? (fun i => i.cat = cat) with
  | some i => i
  | none => SSIdentifier.invalid

/-! ### Object Map (SSObject.cpp)

`SSObjectMap` is `std::map<SSIdentifier, int>`.  We model it as an
association list with exactly the `std::map` semantics the code uses:
`insert` inserts only if no element with the key exists (first-wins),
and `operator[]` value-initialises (to 0) and inserts a missing key. -/

abbrev SSObjectMap := List (SSIdentifier × Nat)

/-- Lookup of a key in the association-list model of `std::map`. -/
def mapFind (m : SSObjectMap) (k : SSIdentifier) : Option Nat :=
  match m.find? (fun p => p.1 = k) with
  | some p => some p.2
  | none => none

/-- Model of `std::map::insert ( \x7b key, value \x7d )`: no effect when an
element with an equivalent key already exists. -/
def mapInsert (m : SSObjectMap) (k : SSIdentifier) (v : Nat) : SSObjectMap :=
  match mapFind m k with
  | some _ => m
  | none => m ++ [(k, v)]

/-- Model of `std::map::operator[] ( key )`: returns the mapped value,
value-initialising (to 0) and inserting the key when it is absent.  The
first component is the value read, the second the (possibly grown) map. -/
def mapBracket (m : SSObjectMap) (k : SSIdentifier) : Nat × SSObjectMap :=
  match mapFind m k with
  | some v => (v, m)
  | none => (0, m ++ [(k, 0)])

/-- A reference collection (`SSObjectVec`): a vector of smart pointers,
each null (`none`) or an object. -/
abbrev SSObjectVec (α : Type) := List (Option (SSStar α))

/-- Recursive worker for `SSMakeObjectMap`: the loop over `objects` with
running index `i`, skipping null pointers and invalid identifiers and
inserting `(ident, i + 1)`. -/
def makeMapLoop {α : Type} (cat : SSCatalog) : SSObjectVec α → Nat → SSObjectMap → SSObjectMap
  | [], _, m => m
  | none :: rest, i, m => makeMapLoop cat rest (i + 1) m
  | some o :: rest, i, m =>
    let ident := o.getIdentifier cat
    if ident.isValid then makeMapLoop cat rest (i + 1) (mapInsert m ident (i + 1))
    else makeMapLoop cat rest (i + 1) m

/-- Embedding of `SSMakeObjectMap` (SSObject.cpp): one pass over the
collection, mapping each record's valid identifier under `cat` to its
1-based position. -/
def SSMakeObjectMap {α : Type} (objects : SSObjectVec α) (cat : SSCatalog) : SSObjectMap :=
  makeMapLoop cat objects 0 []

/-- Embedding of `SSIdentifierToObject` (SSObject.cpp).  The C++ reads
`k = map[ident]` (which may insert a zero entry) and returns
`objects[k-1]` when `k > 0`, else a null pointer.  The first component
is `some (some o)` for an object, `some none` for the null pointer, and
`none` when the unchecked vector access `objects[k-1]` would be out of
bounds; the second component is the map after the `operator[]` call. -/
def SSIdentifierToObject {α : Type} (ident : SSIdentifier) (m : SSObjectMap)
    (objects : SSObjectVec α) : Option (Option (SSStar α)) × SSObjectMap :=
  let (k, m') := mapBracket m ident
  if k > 0 then (objects.get? (k - 1), m')
  else (some none, m')

/-! ### Component Expander (SSImportGJ.cpp, `addGJStar` /
`addGJComponentStars`)

`addGJStar` executes `new SSStar ( *pStar )`: it heap-allocates a fresh
copy of the source entry and appends the pointer to the output vector.
Because claim C8 is about aliasing between emitted entries, the heap is
explicit here: `heap` is the list of allocated cells and `stars` the
output `SSObjectVec` as a list of cell addresses. -/

structure GJState (α : Type) where
  heap : List (SSStar α)
  stars : List Nat
deriving DecidableEq

/-- The value stored in the cell allocated by `addGJStar`: a copy of
`pStar` whose identifier list has the GJ identifier added
(`addIdentifier`) and is then sorted (`sortIdentifiers`). -/
def mkGJStar {α : Type} (pStar : SSStar α) (strGJ strC : String) : SSStar α :=
  { pStar with
    idents := identSort (SSAddIdentifier
      (SSIdentifier.fromString ("GJ " ++ strGJ ++ strC)) pStar.idents) }

/-- Embedding of `addGJStar` (SSImportGJ.cpp): allocate a fresh copy of
`pStar`, add the identifier `GJ <strGJ><strC>`, sort its identifiers,
and append the new cell's address to the output vector. -/
def addGJStar {α : Type} (pStar : SSStar α) (strGJ strC : String) (st : GJState α) :
    GJState α :=
  { heap := st.heap ++ [mkGJStar pStar strGJ strC]
    stars := st.stars ++ [st.heap.length] }

/-- Embedding of `addGJComponentStars` (SSImportGJ.cpp): one entry when
the components string has fewer than 2 characters, else one entry per
character; returns the number of entries emitted. -/
def addGJComponentStars {α : Type} (pStar : SSStar α) (strGJ comps : String)
    (st : GJState α) : Nat × GJState α :=
  if comps.length < 2 then
    (1, addGJStar pStar strGJ comps st)
  else
    (comps.length, comps.data.foldl (fun s c => addGJStar pStar strGJ (String.mk [c]) s) st)

/-! ### Fusion Engine cross-match step and Name Resolver
(SSImportGJ.cpp, lines 236-283) -/

/-- A name table entry list (`SSIdentifierNameMap`), read-only. -/
abbrev SSIdentifierNameMap := List (SSIdentifier × String)

/-- Modelled from the spec: `SSIdentifiersToNames` — "given an entry's
final identifier set and a static identifier→name table, produce an
ordered list of every name associated with any identifier in the set
(order: table iteration order, not identifier order)". -/
def SSIdentifiersToNames (idents : List SSIdentifier) (nameMap : SSIdentifierNameMap) :
    List String :=
  nameMap.filterMap (fun p => if idents.contains p.1 then some p.2 else none)

/-- Embedding of the per-entry body of the cross-match loop of
`SSImportGJCNS3` (SSImportGJ.cpp, lines 238-282): look the entry's GJ
identifier up in the Object Map over `gjACStars`; on a match, overwrite
position and proper motion (radial values only when the reference value
is finite), union in the reference's HIP/Bayer/Flamsteed/GCVS
identifiers and re-sort; then derive names from the local `idents`
vector (empty when the match failed) and replace the name list only
when at least one name was found.  Returns the updated entry and the
map after the `operator[]` lookup. -/
def crossMatchStep {α : Type} (pStar : SSStar α) (m : SSObjectMap)
    (gjACStars : SSObjectVec α) (nameMap : SSIdentifierNameMap) :
    SSStar α × SSObjectMap :=
  let identGJ := pStar.getIdentifier kCatGJ
  let r := SSIdentifierToObject identGJ m gjACStars
  let step : SSStar α × List SSIdentifier :=
    match r.1 with
    | some (some pACStar) =>
      let coords := pStar.coords
      let motion := pStar.motion
      let accCoords := pACStar.coords
      let accMotion := pACStar.motion
      let coords :=
        { coords with
          lon := accCoords.lon
          lat := accCoords.lat
          rad := if isinf accCoords.rad then coords.rad else accCoords.rad }
      let motion :=
        { motion with
          lon := accMotion.lon
          lat := accMotion.lat
          rad := if isinf accMotion.rad then motion.rad else accMotion.rad }
      let idents := pStar.idents
      let idents := SSAddIdentifier (pACStar.getIdentifier kCatHIP) idents
      let idents := SSAddIdentifier (pACStar.getIdentifier kCatBayer) idents
      let idents := SSAddIdentifier (pACStar.getIdentifier kCatFlamsteed) idents
      let idents := SSAddIdentifier (pACStar.getIdentifier kCatGCVS) idents
      let idents := identSort idents
      ({ pStar with idents := idents, coords := coords, motion := motion }, idents)
    | _ => (pStar, [])
  let names := SSIdentifiersToNames step.2 nameMap
  (if names.length > 0 then { step.1 with names := names } else step.1, r.2)

/-! ### Angle conversions (SSUtilities.cpp) and proper-motion
conversions (SSImportGJ.cpp), over the real numbers -/

/-- Embedding of `degtorad` (SSUtilities.cpp). -/
noncomputable def degtorad (deg : ℝ) : ℝ :=
  deg * Real.pi / 180

/-- Model of `SSAngle::fromArcsec` (SSAngle.hpp, outside the slice):
arcseconds to radians. -/
noncomputable def fromArcsec (x : ℝ) : ℝ :=
  degtorad (x / 3600)

/-- Embedding of `atan2pi` (SSUtilities.cpp): the arctangent of `y / x`
in the range 0 to 2π, adding 2π to the plain `atan2` exactly when
`y < 0`.  C `atan2 ( y, x )` is modelled by `Complex.arg ⟨x, y⟩`, which
has the same value in (-π, π]. -/
noncomputable def atan2pi (y x : ℝ) : ℝ :=
  if y < 0 then Complex.arg ⟨x, y⟩ + 2 * Real.pi else Complex.arg ⟨x, y⟩

/-- Embedding of `pm_pa_to_pmra_pmdec` (SSImportGJ.cpp): total proper
motion + position angle + declination to R.A./Dec. components. -/
noncomputable def pm_pa_to_pmra_pmdec (pm pa dec : ℝ) : ℝ × ℝ :=
  (pm * Real.sin pa / Real.cos dec, pm * Real.cos pa)

/-- Embedding of `pmra_pmdec_to_pm_pa` (SSImportGJ.cpp): R.A./Dec.
proper-motion components + declination to total proper motion +
position angle. -/
noncomputable def pmra_pmdec_to_pm_pa (pmra pmdec dec : ℝ) : ℝ × ℝ :=
  let pmra2 := pmra * Real.cos dec
  (Real.sqrt (pmra2 * pmra2 + pmdec * pmdec), atan2pi pmra2 pmdec)

/-! ### The import functions (SSImportGJ.cpp)

The input file is `Option (List String)`: `none` models a file that
cannot be opened (`ifstream` conversion to `false`), `some lines` the
sequence of lines `getline` yields.  Externals from outside the slice
are gathered in `ImportEnv`: `upd` models `SSUpdateStarCoordsAndMotion`
applied with the fixed B1950→J2000 precession matrix computed once
per import call, and the two constants model `SSCoordinates::kLYPerParsec`
and `SSCoordinates::kLightKmPerSec`. -/

structure ImportEnv where
  upd : SSSpherical ℝ → SSSpherical ℝ → SSSpherical ℝ × SSSpherical ℝ
  kLYPerParsec : ℝ
  kLightKmPerSec : ℝ

/-- The entry `SSNewObject ( kTypeStar )` produces before its setters
run: empty names and identifiers, every numeric field at the
infinite sentinel. -/
def newStar : SSStar ℝ :=
  ⟨[], [], ⟨⊤, ⊤, ⊤⟩, ⟨⊤, ⊤, ⊤⟩, ⊤, ⊤, ⊤, ""⟩

/-- Model of `s.substr ( pos, string::npos )`. -/
def substrFrom (s : String) (pos : Nat) : String :=
  String.mk (s.data.drop pos)

/-- Model of `s.find ( t ) == 0`, i.e. `s` begins with `t`. -/
def startsWith (s t : String) : Bool :=
  s.data.take t.data.length = t.data

/-- Model of `s.find_first_of ( cs )`: index of the first character of
`s` that occurs in `cs`, or `none` for `string::npos`. -/
def findFirstOf (s : String) (cs : List Char) : Option Nat :=
  s.data.findIdx? (fun c => cs.contains c)

/-- IEEE-style division of a finite positive constant by a `float` that
may be the infinite sentinel or zero, as in
`kLYPerParsec / pHIPStar->getParallax()`: finite / ∞ = 0 and
positive / 0 = ∞. -/
noncomputable def wdiv (a : ℝ) (b : WithTop ℝ) : WithTop ℝ :=
  match b with
  | ⊤ => (0 : ℝ)
  | (x : ℝ) => if x = 0 then ⊤ else ((a / x : ℝ) : WithTop ℝ)

/-- One iteration of the line-reading loop of `SSImportGJCNS3`
(SSImportGJ.cpp, lines 95-227): parse the fixed-column CNS3 fields,
convert the B1950 position and proper motion, precess to J2000, build
the provisional entry, and append its component stars.  `continue`
paths return the accumulator unchanged. -/
noncomputable def cns3Line (env : ImportEnv) (acc : Nat × GJState ℝ) (line : String) :
    Nat × GJState ℝ :=
  let len := line.length
  if len < 119 then acc else
  let strGJ := trim (substr line 2 6)
  let comps := trim (substr line 8 2)
  let strHD := if len < 153 then "" else trim (substr line 146 6)
  let strDM := if len < 165 then "" else trim (substr line 153 12)
  let strRA := trim (substr line 12 8)
  let strDec := trim (substr line 21 8)
  if strRA = "" || strDec = "" then acc else
  let strPM := trim (substr line 30 6)
  let strPA := trim (substr line 37 5)
  let strRV := trim (substr line 43 6)
  let strSpec := trim (substr line 54 12)
  let strVmag := trim (substr line 67 6)
  let strBmV := trim (substr line 76 5)
  let strPlx := trim (substr line 108 6)
  let ra := degtorad ((strtodeg strRA : ℚ) * 15)
  let dec := degtorad ((strtodeg strDec : ℚ) : ℝ)
  let pmPair : WithTop ℝ × WithTop ℝ :=
    if strPM ≠ "" && strPA ≠ "" then
      let pm := fromArcsec ((strtofloat strPM : ℚ) : ℝ)
      let pa := degtorad ((strtofloat strPA : ℚ) : ℝ)
      let p := pm_pa_to_pmra_pmdec pm pa dec
      ((p.1 : ℝ), (p.2 : ℝ))
    else (⊤, ⊤)
  let coords : SSSpherical ℝ := ⟨(ra : ℝ), (dec : ℝ), ((1 : ℝ) : WithTop ℝ)⟩
  let motion : SSSpherical ℝ := ⟨pmPair.1, pmPair.2, ((0 : ℝ) : WithTop ℝ)⟩
  let cm := env.upd coords motion
  let coords := cm.1
  let motion := cm.2
  let plx := ((strtofloat strPlx : ℚ) : ℝ)
  let coords := if plx > 1 then { coords with rad := ((1000 * env.kLYPerParsec / plx : ℝ) : WithTop ℝ) } else coords
  let motion :=
    { motion with
      rad := if strRV = "" then (⊤ : WithTop ℝ)
             else (((strtofloat strRV : ℚ) / env.kLightKmPerSec : ℝ) : WithTop ℝ) }
  let vmag : WithTop ℝ := if strVmag = "" then ⊤ else ((strtofloat strVmag : ℚ) : ℝ)
  let bmag : WithTop ℝ := if strBmV = "" then ⊤ else ((((strtofloat strBmV : ℚ) : ℝ) : WithTop ℝ) + vmag)
  let idents : List SSIdentifier := []
  let idents := if strHD ≠ "" then SSAddIdentifier (SSIdentifier.ofCat kCatHD (strtoint strHD)) idents else idents
  let idents := if strDM ≠ "" then SSAddIdentifier (SSIdentifier.fromString strDM) idents else idents
  let idents :=
    if len > 189 then
      let strName := trim (substrFrom line 188)
      let strName := if startsWith strName "MU" || startsWith strName "NU" then "" else strName
      let ident := SSIdentifier.fromString strName
      if ident.cat = kCatGCVS then SSAddIdentifier ident idents else idents
    else idents
  let pStar : SSStar ℝ :=
    { newStar with
      idents := idents
      coords := coords
      motion := motion
      vmag := vmag
      bmag := bmag
      specType := strSpec }
  let r := addGJComponentStars pStar strGJ comps acc.2
  (acc.1 + r.1, r.2)

/-- The cross-match loop of `SSImportGJCNS3` (SSImportGJ.cpp, lines
236-283) over the whole output vector: each entry is read from the
heap, cross-matched and merged by `crossMatchStep`, and written back;
the Object Map is threaded because `operator[]` lookups may grow it. -/
def crossMatchAll {α : Type} (gjACStars : SSObjectVec α) (nameMap : SSIdentifierNameMap) :
    List Nat → List (SSStar α) → SSObjectMap → List (SSStar α) × SSObjectMap
  | [], heap, m => (heap, m)
  | a :: rest, heap, m =>
    match heap.get? a with
    | none => crossMatchAll gjACStars nameMap rest heap m
    | some s =>
      let r := crossMatchStep s m gjACStars nameMap
      crossMatchAll gjACStars nameMap rest (heap.set a r.1) r.2

/-- Embedding of `SSImportGJCNS3` (SSImportGJ.cpp): returns 0 and leaves
the output collection untouched when the file cannot be opened;
otherwise runs the line loop, builds the GJ Object Map over
`gjACStars`, and cross-matches every entry of the output vector. -/
noncomputable def SSImportGJCNS3 (env : ImportEnv) (file : Option (List String))
    (nameMap : SSIdentifierNameMap) (gjACStars : SSObjectVec ℝ) (st : GJState ℝ) :
    Nat × GJState ℝ :=
  match file with
  | none => (0, st)
  | some lines =>
    let r := lines.foldl (cns3Line env) (0, st)
    let map := SSMakeObjectMap gjACStars kCatGJ
    let hm := crossMatchAll gjACStars nameMap r.2.stars r.2.heap map
    (r.1, { r.2 with heap := hm.1 })

/-- One iteration of the line-reading loop of `SSImportGJAC`
(SSImportGJ.cpp, lines 315-421): parse the fixed-column accurate-
coordinates fields, split the component letters out of the GJ
identifier, look up the Hipparcos star, and append the component
stars.  The accumulator carries the running count, the output state,
and the HIP Object Map (whose `operator[]` lookups may grow it). -/
noncomputable def gjacLine (env : ImportEnv) (hipStars : SSObjectVec ℝ)
    (acc : Nat × GJState ℝ × SSObjectMap) (line : String) :
    Nat × GJState ℝ × SSObjectMap :=
  if line.length < 124 then acc else
  let strGJ0 := trim (substr line 2 20)
  let strHIP := trim (substr line 22 13)
  let gjc : String × String :=
    match findFirstOf strGJ0 ['A', 'B', 'C', 'D'] with
    | some pos1 =>
      let comps :=
        match findFirstOf strGJ0 ['/'] with
        | none => trim (substrFrom strGJ0 (pos1 - 1))
        | some pos2 => trim (substr strGJ0 (pos1 - 1) (pos2 - pos1))
      (String.mk (strGJ0.data.take pos1), comps)
    | none => (strGJ0, "")
  let strGJ := gjc.1
  let comps := gjc.2
  let strRA := trim (substr line 36 11)
  let strDec := trim (substr line 48 11)
  if strRA = "" || strDec = "" then acc else
  let strPMRA := trim (substr line 61 6)
  let strPMDec := trim (substr line 69 6)
  let ra := degtorad ((strtodeg strRA : ℚ) * 15)
  let dec := degtorad ((strtodeg strDec : ℚ) : ℝ)
  let pmRA : WithTop ℝ :=
    if strPMRA ≠ "" then ((fromArcsec ((strtofloat strPMRA : ℚ) : ℝ) / Real.cos dec : ℝ) : WithTop ℝ)
    else ⊤
  let pmDec : WithTop ℝ :=
    if strPMDec ≠ "" then ((fromArcsec ((strtofloat strPMDec : ℚ) : ℝ) : ℝ) : WithTop ℝ)
    else ⊤
  let coords : SSSpherical ℝ := ⟨(ra : ℝ), (dec : ℝ), ⊤⟩
  let motion : SSSpherical ℝ := ⟨pmRA, pmDec, ⊤⟩
  let idents : List SSIdentifier := []
  let names : List String := []
  let hipID := SSIdentifier.fromString strHIP
  let idents := if hipID.isValid then SSAddIdentifier hipID idents else idents
  let lookup := SSIdentifierToObject hipID acc.2.2 hipStars
  let merged : SSSpherical ℝ × SSSpherical ℝ × WithTop ℝ × WithTop ℝ × List SSIdentifier :=
    match lookup.1 with
    | some (some pHIPStar) =>
      let coords := { coords with rad := wdiv env.kLYPerParsec pHIPStar.parallax }
      let motion := { motion with rad := pHIPStar.motion.rad }
      let vmag := pHIPStar.vmag
      let bmag := pHIPStar.bmag
      let idents := SSAddIdentifier (pHIPStar.getIdentifier kCatBayer) idents
      let idents := SSAddIdentifier (pHIPStar.getIdentifier kCatFlamsteed) idents
      let idents := SSAddIdentifier (pHIPStar.getIdentifier kCatGCVS) idents
      (coords, motion, vmag, bmag, idents)
    | _ => (coords, motion, ⊤, ⊤, idents)
  let pStar : SSStar ℝ :=
    { newStar with
      names := names
      idents := merged.2.2.2.2
      coords := merged.1
      motion := merged.2.1
      vmag := merged.2.2.1
      bmag := merged.2.2.2.1 }
  let r := addGJComponentStars pStar strGJ comps acc.2.1
  (acc.1 + r.1, r.2, lookup.2)

/-- Embedding of `SSImportGJAC` (SSImportGJ.cpp): returns 0 and leaves
the output collection untouched when the file cannot be opened;
otherwise builds the HIP Object Map over `hipStars` and runs the line
loop. -/
noncomputable def SSImportGJAC (env : ImportEnv) (file : Option (List String))
    (hipStars : SSObjectVec ℝ) (st : GJState ℝ) : Nat × GJState ℝ :=
  match file with
  | none => (0, st)
  | some lines =>
    let map := SSMakeObjectMap hipStars kCatHIP
    let r := lines.foldl (gjacLine env hipStars) (0, st, map)
    (r.1, r.2.1)

/-! ### Auxiliary predicates for the parser proofs -/

/-- A character list that does not begin with a decimal digit (so a
digit scan consumes nothing from it). -/
def notDigitStart : List Char → Prop
  | [] => True
  | c :: _ => isCDigit c = false

/-- A character list that cannot extend a `%lf` token: it does not begin
with a digit, a decimal point, or an exponent letter. -/
def tokenEnd : List Char → Prop
  | [] => True
  | c :: _ => isCDigit c = false ∧ c ≠ '.' ∧ c ≠ 'e' ∧ c ≠ 'E'

/-- The numeric value of a digit run, as the scanner accumulates it. -/
def digitsValN (ds : List Char) : ℕ :=
  ds.foldl (fun a c => 10 * a + digitVal c) 0

/-! ### Auxiliary notions for the Object Map theorems -/

/-- The 1-based slot of the first record of `l` (list offset by base
index `i`) that is non-null and carries the valid identifier `k` under
catalog `cat`; `none` when no record does. -/
def firstSlot {α : Type} (cat : SSCatalog) (k : SSIdentifier) :
    SSObjectVec α → Nat → Option Nat
  | [], _ => none
  | none :: rest, i => firstSlot cat k rest (i + 1)
  | some o :: rest, i =>
    if (o.getIdentifier cat).isValid = true ∧ o.getIdentifier cat = k then some (i + 1)
    else firstSlot cat k rest (i + 1)

/-- Position `n` of the collection holds a non-null record whose
identifier under `cat` is valid and equals `k`. -/
def carries {α : Type} (cat : SSCatalog) (k : SSIdentifier) (v : SSObjectVec α)
    (n : Nat) : Prop :=
  ∃ o, v.get? n = some (some o) ∧ (o.getIdentifier cat).isValid = true ∧
    o.getIdentifier cat = k

/-- A concrete stellar entry used by the closed counterexamples: one
name, one identifier, every numeric field unknown. -/
def demoStar (nm : String) (ident : SSIdentifier) : SSStar ℚ :=
  ⟨[nm], [ident], ⟨⊤, ⊤, ⊤⟩, ⟨⊤, ⊤, ⊤⟩, ⊤, ⊤, ⊤, ""⟩

/-- A concrete stellar entry with a finite radial velocity, used by the
merge counterexamples. -/
def rvStar (rv : ℚ) (ident : SSIdentifier) : SSStar ℚ :=
  ⟨[], [ident], ⟨⊤, ⊤, ⊤⟩, ⟨⊤, ⊤, ((rv : ℚ) : WithTop ℚ)⟩, ⊤, ⊤, ⊤, ""⟩

/-! ## Theorems -/

theorem isCDigit_ne {c d : Char} (h : isCDigit c = true) (hd : isCDigit d = false) :
    c ≠ d := by
  intro h'
  subst h'
  rw [h] at hd
  cases hd

theorem not_space_of_digit {c : Char} (h : isCDigit c = true) : isCSpace c = false := by
  cases hx : isCSpace c
  · rfl
  · exfalso
    simp only [isCSpace, Bool.or_eq_true, decide_eq_true_eq] at hx
    rcases hx with ((((h1 | h1) | h1) | h1) | h1) | h1 <;> subst h1 <;>
      exact absurd h (by decide)

theorem scanDigits_append (ds rest : List Char) (acc n : ℕ)
    (hds : ∀ c ∈ ds, isCDigit c = true) (hrest : notDigitStart rest) :
    scanDigits (ds ++ rest) acc n =
      (ds.foldl (fun a c => 10 * a + digitVal c) acc, n + ds.length, rest) := by
  induction ds generalizing acc n with
  | nil =>
    simp only [List.nil_append, List.foldl_nil, List.length_nil, Nat.add_zero]
    cases rest with
    | nil => rfl
    | cons c cs =>
      unfold scanDigits
      rw [if_neg]
      simp [notDigitStart] at hrest
      simp [hrest]
  | cons d ds' ih =>
    have hd : isCDigit d = true := hds d (by simp)
    rw [List.cons_append]
    unfold scanDigits
    simp only [hd, if_true]
    rw [ih (10 * acc + digitVal d) (n + 1) (fun c hc => hds c (List.mem_cons_of_mem _ hc))]
    simp only [List.foldl_cons, List.length_cons, Prod.mk.injEq]
    exact ⟨trivial, by omega, trivial⟩

theorem notDigitStart_of_tokenEnd {rest : List Char} (h : tokenEnd rest) :
    notDigitStart rest := by
  cases rest with
  | nil => trivial
  | cons c cs => exact h.1

theorem scanFloat_cons_space {c : Char} (h : isCSpace c = true) (t : List Char) :
    scanFloat (c :: t) = scanFloat t := by
  unfold scanFloat
  rw [List.dropWhile_cons, if_pos h]

theorem scanFloat_digits (ds rest : List Char) (hne : ds ≠ [])
    (hds : ∀ c ∈ ds, isCDigit c = true) (hrest : tokenEnd rest) :
    scanFloat (ds ++ rest) = some ((digitsValN ds : ℚ), rest) := by
  cases ds with
  | nil => exact absurd rfl hne
  | cons d ds' =>
    have hd : isCDigit d = true := hds d (List.mem_cons_self _ _)
    have hsp : isCSpace d = false := not_space_of_digit hd
    have hplus : d ≠ '+' := isCDigit_ne hd (by decide)
    have hminus : d ≠ '-' := isCDigit_ne hd (by decide)
    have hscan := scanDigits_append (d :: ds') rest 0 0 hds (notDigitStart_of_tokenEnd hrest)
    unfold scanFloat scanSign
    rw [List.cons_append, List.dropWhile_cons]
    simp only [hsp, Bool.false_eq_true, if_false, if_neg hplus, if_neg hminus]
    rw [← List.cons_append, hscan]
    cases rest with
    | nil =>
      unfold scanExp
      simp [digitsValN]
    | cons c cs =>
      obtain ⟨hcd, hcdot, hce, hcE⟩ := hrest
      unfold scanExp
      simp [hcd, hcdot, hce, hcE, digitsValN]

theorem scanFloat_neg_digits (ds rest : List Char) (hne : ds ≠ [])
    (hds : ∀ c ∈ ds, isCDigit c = true) (hrest : tokenEnd rest) :
    scanFloat ('-' :: ds ++ rest) = some (-(digitsValN ds : ℚ), rest) := by
  cases ds with
  | nil => exact absurd rfl hne
  | cons d ds' =>
    have hd : isCDigit d = true := hds d (List.mem_cons_self _ _)
    have hscan := scanDigits_append (d :: ds') rest 0 0 hds (notDigitStart_of_tokenEnd hrest)
    unfold scanFloat scanSign
    rw [show ('-' :: (d :: ds') ++ rest) = ('-' :: ((d :: ds') ++ rest)) from rfl,
      List.dropWhile_cons]
    simp only [show isCSpace '-' = false from rfl, Bool.false_eq_true, if_false,
      if_neg (show ('-' : Char) ≠ '+' by decide), eq_self_iff_true, if_true]
    rw [hscan]
    cases rest with
    | nil =>
      unfold scanExp
      simp [digitsValN]
    | cons c cs =>
      obtain ⟨hcd, hcdot, hce, hcE⟩ := hrest
      unfold scanExp
      simp [hcd, hcdot, hce, hcE, digitsValN]

theorem scanFloat_nil : scanFloat [] = none := rfl

theorem tokenEnd_space (t : List Char) : tokenEnd (' ' :: t) :=
  ⟨by decide, by decide, by decide, by decide⟩

theorem scan3_d (D : List Char) (hD : D ≠ []) (hDd : ∀ c ∈ D, isCDigit c = true) :
    scan3 (String.mk D) = ((digitsValN D : ℚ), 0, 0) := by
  have h1 : scanFloat D = some ((digitsValN D : ℚ), []) := by
    have h := scanFloat_digits D [] hD hDd trivial
    simpa using h
  unfold scan3
  rw [show (String.mk D).data = D from rfl]
  simp only [h1, scanFloat_nil]

theorem scan3_dm (D M : List Char) (hD : D ≠ []) (hM : M ≠ [])
    (hDd : ∀ c ∈ D, isCDigit c = true) (hMd : ∀ c ∈ M, isCDigit c = true) :
    scan3 (String.mk (D ++ (' ' :: M))) = ((digitsValN D : ℚ), (digitsValN M : ℚ), 0) := by
  have h1 : scanFloat (D ++ (' ' :: M)) = some ((digitsValN D : ℚ), ' ' :: M) :=
    scanFloat_digits D (' ' :: M) hD hDd (tokenEnd_space M)
  have h2 : scanFloat (' ' :: M) = some ((digitsValN M : ℚ), []) := by
    rw [scanFloat_cons_space (by decide) M]
    have h := scanFloat_digits M [] hM hMd trivial
    simpa using h
  unfold scan3
  rw [show (String.mk (D ++ (' ' :: M))).data = D ++ (' ' :: M) from rfl]
  simp only [h1, h2, scanFloat_nil]

theorem scan3_dms (D M S : List Char) (hD : D ≠ []) (hM : M ≠ []) (hS : S ≠ [])
    (hDd : ∀ c ∈ D, isCDigit c = true) (hMd : ∀ c ∈ M, isCDigit c = true)
    (hSd : ∀ c ∈ S, isCDigit c = true) :
    scan3 (String.mk (D ++ (' ' :: (M ++ (' ' :: S))))) =
      ((digitsValN D : ℚ), (digitsValN M : ℚ), (digitsValN S : ℚ)) := by
  have h1 : scanFloat (D ++ (' ' :: (M ++ (' ' :: S)))) =
      some ((digitsValN D : ℚ), ' ' :: (M ++ (' ' :: S))) :=
    scanFloat_digits D (' ' :: (M ++ (' ' :: S))) hD hDd (tokenEnd_space _)
  have h2 : scanFloat (' ' :: (M ++ (' ' :: S))) = some ((digitsValN M : ℚ), ' ' :: S) := by
    rw [scanFloat_cons_space (by decide)]
    exact scanFloat_digits M (' ' :: S) hM hMd (tokenEnd_space S)
  have h3 : scanFloat (' ' :: S) = some ((digitsValN S : ℚ), []) := by
    rw [scanFloat_cons_space (by decide)]
    have h := scanFloat_digits S [] hS hSd trivial
    simpa using h
  unfold scan3
  rw [show (String.mk (D ++ (' ' :: (M ++ (' ' :: S))))).data =
    D ++ (' ' :: (M ++ (' ' :: S))) from rfl]
  simp only [h1, h2, h3]

theorem scan3_neg_dms (D M S : List Char) (hD : D ≠ []) (hM : M ≠ []) (hS : S ≠ [])
    (hDd : ∀ c ∈ D, isCDigit c = true) (hMd : ∀ c ∈ M, isCDigit c = true)
    (hSd : ∀ c ∈ S, isCDigit c = true) :
    scan3 (String.mk ('-' :: (D ++ (' ' :: (M ++ (' ' :: S)))))) =
      (-(digitsValN D : ℚ), (digitsValN M : ℚ), (digitsValN S : ℚ)) := by
  have h1 : scanFloat ('-' :: (D ++ (' ' :: (M ++ (' ' :: S))))) =
      some (-(digitsValN D : ℚ), ' ' :: (M ++ (' ' :: S))) := by
    have h := scanFloat_neg_digits D (' ' :: (M ++ (' ' :: S))) hD hDd (tokenEnd_space _)
    simpa using h
  have h2 : scanFloat (' ' :: (M ++ (' ' :: S))) = some ((digitsValN M : ℚ), ' ' :: S) := by
    rw [scanFloat_cons_space (by decide)]
    exact scanFloat_digits M (' ' :: S) hM hMd (tokenEnd_space S)
  have h3 : scanFloat (' ' :: S) = some ((digitsValN S : ℚ), []) := by
    rw [scanFloat_cons_space (by decide)]
    have h := scanFloat_digits S [] hS hSd trivial
    simpa using h
  unfold scan3
  rw [show (String.mk ('-' :: (D ++ (' ' :: (M ++ (' ' :: S)))))).data =
    '-' :: (D ++ (' ' :: (M ++ (' ' :: S)))) from rfl]
  simp only [h1, h2, h3]

/-- Claim C5, counterexample: on the input `"10 -30"` the minus sign sits
on the minutes sub-field; `strtodeg` returns `10 - 30/60 = 9.5`, not the
claimed negation `-(|10| + 30/60 + 0/3600) = -10.5` of the whole
combined value. -/
theorem strtodeg_minutes_sign_counterexample :
    strtodeg "10 -30" = 19 / 2 ∧
      strtodeg "10 -30" ≠ -(|(10 : ℚ)| + 30 / 60 + 0 / 3600) := by
  have h : strtodeg "10 -30" = 19 / 2 := by
    simp +decide [strtodeg, scan3, scanFloat, scanSign, scanDigits, scanExp,
      isCSpace, isCDigit, digitVal]
    norm_num
  refine ⟨h, ?_⟩
  rw [h]
  norm_num

/-- Claim C5 (amended): `strtodeg` parses a tolerant
"degrees [minutes [seconds]]" string; missing minute and second groups
default to zero, and a `-` sign negates the whole combined value
`|D| + M/60 + S/3600` exactly when it appears as the first character of
the string (on the degrees field) — not when it appears on the minutes
or seconds sub-field. -/
theorem strtodeg_dms (D M S : List Char) (hD : D ≠ []) (hM : M ≠ []) (hS : S ≠ [])
    (hDd : ∀ c ∈ D, isCDigit c = true) (hMd : ∀ c ∈ M, isCDigit c = true)
    (hSd : ∀ c ∈ S, isCDigit c = true) :
    strtodeg (String.mk D) = (digitsValN D : ℚ) ∧
    strtodeg (String.mk (D ++ (' ' :: M))) =
      (digitsValN D : ℚ) + (digitsValN M : ℚ) / 60 ∧
    strtodeg (String.mk (D ++ (' ' :: (M ++ (' ' :: S))))) =
      (digitsValN D : ℚ) + (digitsValN M : ℚ) / 60 + (digitsValN S : ℚ) / 3600 ∧
    strtodeg (String.mk ('-' :: (D ++ (' ' :: (M ++ (' ' :: S)))))) =
      -((digitsValN D : ℚ) + (digitsValN M : ℚ) / 60 + (digitsValN S : ℚ) / 3600) := by
  obtain ⟨d, D', rfl⟩ := List.exists_cons_of_ne_nil hD
  have hd : isCDigit d = true := hDd d (List.mem_cons_self _ _)
  have hdm : d ≠ '-' := isCDigit_ne hd (by decide)
  have habs : |(digitsValN (d :: D') : ℚ)| = (digitsValN (d :: D') : ℚ) :=
    abs_of_nonneg (Nat.cast_nonneg _)
  refine ⟨?_, ?_, ?_, ?_⟩
  · unfold strtodeg
    rw [scan3_d (d :: D') hD hDd]
    simp only [if_neg hdm, habs]
    norm_num
  · unfold strtodeg
    rw [scan3_dm (d :: D') M hD hM hDd hMd]
    simp only [List.cons_append, if_neg hdm, habs]
    norm_num
  · unfold strtodeg
    rw [scan3_dms (d :: D') M S hD hM hS hDd hMd hSd]
    simp only [List.cons_append, if_neg hdm, habs]
  · unfold strtodeg
    rw [scan3_neg_dms (d :: D') M S hD hM hS hDd hMd hSd]
    simp only [abs_neg, habs, eq_self_iff_true, if_true]

/-- Witness for `strtodeg_dms` at the concrete digit runs `10`, `30`,
`45`: `strtodeg "10 30 45" = 10 + 30/60 + 45/3600` and
`strtodeg "-10 30 45"` is its negation. -/
theorem strtodeg_dms_witness :
    strtodeg (String.mk ['1', '0', ' ', '3', '0', ' ', '4', '5']) =
      (digitsValN ['1', '0'] : ℚ) + (digitsValN ['3', '0'] : ℚ) / 60 +
        (digitsValN ['4', '5'] : ℚ) / 3600 ∧
    strtodeg (String.mk ['-', '1', '0', ' ', '3', '0', ' ', '4', '5']) =
      -((digitsValN ['1', '0'] : ℚ) + (digitsValN ['3', '0'] : ℚ) / 60 +
        (digitsValN ['4', '5'] : ℚ) / 3600) := by
  have h := strtodeg_dms ['1', '0'] ['3', '0'] ['4', '5']
    (by decide) (by decide) (by decide) (by decide) (by decide) (by decide)
  exact ⟨h.2.2.1, h.2.2.2⟩

theorem mapFind_append (m : SSObjectMap) (q : SSIdentifier × Nat) (k : SSIdentifier) :
    mapFind (m ++ [q]) k =
      match mapFind m k with
      | some v => some v
      | none => if q.1 = k then some q.2 else none := by
  unfold mapFind
  rw [List.find?_append]
  cases h : List.find? (fun p => decide (p.1 = k)) m with
  | some p => rfl
  | none =>
    simp only [Option.none_or]
    by_cases hq : q.1 = k
    · simp [List.find?, hq]
    · simp [List.find?, hq]

theorem mapFind_mem {m : SSObjectMap} {k : SSIdentifier} {v : Nat}
    (h : mapFind m k = some v) : (k, v) ∈ m := by
  unfold mapFind at h
  cases hf : List.find? (fun p => decide (p.1 = k)) m with
  | none => rw [hf] at h; cases h
  | some p =>
    rw [hf] at h
    have hp := List.find?_some hf
    have hmem := List.mem_of_find?_eq_some hf
    simp only [decide_eq_true_eq] at hp
    cases h
    cases p
    cases hp
    exact hmem

theorem mapFind_mapInsert (m : SSObjectMap) (id : SSIdentifier) (v : Nat)
    (k : SSIdentifier) :
    mapFind (mapInsert m id v) k =
      if id = k then
        (match mapFind m k with | some w => some w | none => some v)
      else mapFind m k := by
  unfold mapInsert
  cases hm : mapFind m id with
  | some w =>
    by_cases hk : id = k
    · subst hk
      rw [if_pos rfl, hm]
    · rw [if_neg hk]
  | none =>
    rw [mapFind_append]
    by_cases hk : id = k
    · subst hk
      rw [hm]
    · simp only [if_neg hk]
      cases hmk : mapFind m k <;> rfl

theorem firstSlot_cons_none {α : Type} (cat : SSCatalog) (k : SSIdentifier)
    (rest : SSObjectVec α) (i : Nat) :
    firstSlot cat k (none :: rest) i = firstSlot cat k rest (i + 1) := rfl

theorem firstSlot_cons_some {α : Type} (cat : SSCatalog) (k : SSIdentifier)
    (o : SSStar α) (rest : SSObjectVec α) (i : Nat) :
    firstSlot cat k (some o :: rest) i =
      if (o.getIdentifier cat).isValid = true ∧ o.getIdentifier cat = k then
        some (i + 1)
      else firstSlot cat k rest (i + 1) := rfl

theorem makeMapLoop_find {α : Type} (cat : SSCatalog) (k : SSIdentifier)
    (l : SSObjectVec α) (i : Nat) (m : SSObjectMap) :
    mapFind (makeMapLoop cat l i m) k =
      match mapFind m k with
      | some v => some v
      | none => firstSlot cat k l i := by
  induction l generalizing i m with
  | nil =>
    show mapFind m k = _
    cases mapFind m k <;> rfl
  | cons x rest ih =>
    cases x with
    | none =>
      show mapFind (makeMapLoop cat rest (i + 1) m) k = _
      rw [ih]
      cases mapFind m k <;> rfl
    | some o =>
      show mapFind (if (o.getIdentifier cat).isValid = true then
          makeMapLoop cat rest (i + 1) (mapInsert m (o.getIdentifier cat) (i + 1))
        else makeMapLoop cat rest (i + 1) m) k = _
      by_cases hv : (o.getIdentifier cat).isValid = true
      · rw [if_pos hv, ih, mapFind_mapInsert]
        by_cases hk : o.getIdentifier cat = k
        · rw [if_pos hk]
          cases hmk : mapFind m k with
          | none =>
            rw [firstSlot_cons_some, if_pos ⟨hv, hk⟩]
          | some w => rfl
        · rw [if_neg hk]
          cases hmk : mapFind m k with
          | none =>
            rw [firstSlot_cons_some, if_neg (fun hc => hk hc.2)]
          | some w => rfl
      · rw [if_neg hv, ih]
        cases hmk : mapFind m k with
        | some v => rfl
        | none =>
          rw [firstSlot_cons_some, if_neg (fun hc => hv hc.1)]

theorem makeMapLoop_cons_none {α : Type} (cat : SSCatalog)
    (rest : SSObjectVec α) (i : Nat) (m : SSObjectMap) :
    makeMapLoop cat (none :: rest) i m = makeMapLoop cat rest (i + 1) m := rfl

theorem makeMapLoop_cons_some {α : Type} (cat : SSCatalog) (o : SSStar α)
    (rest : SSObjectVec α) (i : Nat) (m : SSObjectMap) :
    makeMapLoop cat (some o :: rest) i m =
      if (o.getIdentifier cat).isValid = true then
        makeMapLoop cat rest (i + 1) (mapInsert m (o.getIdentifier cat) (i + 1))
      else makeMapLoop cat rest (i + 1) m := rfl

theorem firstSlot_eq {α : Type} (cat : SSCatalog) (k : SSIdentifier)
    (l : SSObjectVec α) (i n : Nat)
    (hc : carries cat k l n) (hmin : ∀ m, m < n → ¬ carries cat k l m) :
    firstSlot cat k l i = some (i + n + 1) := by
  induction l generalizing i n with
  | nil =>
    obtain ⟨o, ho, -, -⟩ := hc
    simp at ho
  | cons x rest ih =>
    cases n with
    | zero =>
      obtain ⟨o, ho, hv, hk⟩ := hc
      rw [List.get?_cons_zero] at ho
      cases ho
      rw [firstSlot_cons_some, if_pos ⟨hv, hk⟩]
    | succ n' =>
      have hh := hmin 0 (Nat.succ_pos n')
      have hc' : carries cat k rest n' := by
        obtain ⟨o, ho, hv, hk⟩ := hc
        rw [List.get?_cons_succ] at ho
        exact ⟨o, ho, hv, hk⟩
      have hmin' : ∀ m, m < n' → ¬ carries cat k rest m := by
        intro m hm hcm
        obtain ⟨o, ho, hv, hk⟩ := hcm
        exact hmin (m + 1) (by omega) ⟨o, by rw [List.get?_cons_succ]; exact ho, hv, hk⟩
      cases x with
      | none =>
        rw [firstSlot_cons_none, ih (i + 1) n' hc' hmin']
        simp only [Option.some.injEq]
        omega
      | some o' =>
        have hcond : ¬ ((o'.getIdentifier cat).isValid = true ∧ o'.getIdentifier cat = k) := by
          intro hcond
          exact hh ⟨o', List.get?_cons_zero, hcond.1, hcond.2⟩
        rw [firstSlot_cons_some, if_neg hcond, ih (i + 1) n' hc' hmin']
        simp only [Option.some.injEq]
        omega

theorem makeMapLoop_mem {α : Type} (cat : SSCatalog) (l : SSObjectVec α)
    (i : Nat) (m : SSObjectMap) (p : SSIdentifier × Nat)
    (hp : p ∈ makeMapLoop cat l i m) :
    p ∈ m ∨ (i + 1 ≤ p.2 ∧ p.2 ≤ i + l.length) := by
  induction l generalizing i m with
  | nil => exact Or.inl hp
  | cons x rest ih =>
    cases x with
    | none =>
      rcases ih (i + 1) m hp with h | h
      · exact Or.inl h
      · right
        simp only [List.length_cons]
        omega
    | some o =>
      by_cases hv : (o.getIdentifier cat).isValid = true
      · rw [makeMapLoop_cons_some, if_pos hv] at hp
        rcases ih (i + 1) _ hp with h | h
        · unfold mapInsert at h
          cases hm : mapFind m (o.getIdentifier cat) with
          | some w =>
            rw [hm] at h
            exact Or.inl h
          | none =>
            rw [hm] at h
            rcases List.mem_append.mp h with h' | h'
            · exact Or.inl h'
            · right
              simp only [List.mem_singleton] at h'
              subst h'
              simp only [List.length_cons]
              omega
        · right
          simp only [List.length_cons]
          omega
      · rw [makeMapLoop_cons_some, if_neg hv] at hp
        rcases ih (i + 1) m hp with h | h
        · exact Or.inl h
        · right
          simp only [List.length_cons]
          omega

/-- Claim C1, counterexample: two reference records `R1` (inserted
first) and `R2` (inserted second) share the valid GJ identifier `100`;
the map built by `SSMakeObjectMap` resolves the identifier to slot 1 and
lookup returns `R1`, not `R2` — `std::map::insert` keeps the existing
entry, so the build policy is first-wins, not last-wins. -/
theorem object_map_last_wins_counterexample :
    (SSIdentifierToObject ⟨kCatGJ, "100"⟩
        (SSMakeObjectMap [some (demoStar "R1" ⟨kCatGJ, "100"⟩),
          some (demoStar "R2" ⟨kCatGJ, "100"⟩)] kCatGJ)
        [some (demoStar "R1" ⟨kCatGJ, "100"⟩),
          some (demoStar "R2" ⟨kCatGJ, "100"⟩)]).1 =
      some (some (demoStar "R1" ⟨kCatGJ, "100"⟩)) ∧
    demoStar "R1" ⟨kCatGJ, "100"⟩ ≠ demoStar "R2" ⟨kCatGJ, "100"⟩ := by
  constructor
  · decide
  · decide

/-- Claim C1 (amended): the Object Map build is first-wins.  When two
records `R1` (inserted earlier, at the earliest position carrying the
identifier) and `R2` (inserted later) share a valid identifier under the
matched catalog tag, the built map resolves the identifier to `R1`'s
slot, and lookup returns `R1`, not `R2`. -/
theorem SSMakeObjectMap_first_wins {α : Type} (objects : SSObjectVec α)
    (cat : SSCatalog) (k : SSIdentifier) (i j : Nat) (R1 R2 : SSStar α)
    (hij : i < j)
    (h1 : objects.get? i = some (some R1))
    (h1v : (R1.getIdentifier cat).isValid = true)
    (h1k : R1.getIdentifier cat = k)
    (h2 : objects.get? j = some (some R2))
    (h2v : (R2.getIdentifier cat).isValid = true)
    (h2k : R2.getIdentifier cat = k)
    (hmin : ∀ n, n < i → ¬ carries cat k objects n) :
    mapFind (SSMakeObjectMap objects cat) k = some (i + 1) ∧
    (SSIdentifierToObject k (SSMakeObjectMap objects cat) objects).1 =
      some (some R1) := by
  have hfind : mapFind (SSMakeObjectMap objects cat) k = some (i + 1) := by
    unfold SSMakeObjectMap
    rw [makeMapLoop_find]
    have h0 : mapFind ([] : SSObjectMap) k = none := rfl
    rw [h0, firstSlot_eq cat k objects 0 i ⟨R1, h1, h1v, h1k⟩ hmin]
    simp only [Option.some.injEq]
    omega
  refine ⟨hfind, ?_⟩
  unfold SSIdentifierToObject mapBracket
  rw [hfind]
  simp only [Nat.add_sub_cancel, gt_iff_lt, Nat.succ_pos, if_true, h1]

/-- Witness for `SSMakeObjectMap_first_wins` on a concrete two-record
collection sharing GJ identifier 100. -/
theorem SSMakeObjectMap_first_wins_witness :
    mapFind (SSMakeObjectMap [some (demoStar "W1" ⟨kCatGJ, "100"⟩),
        some (demoStar "W2" ⟨kCatGJ, "100"⟩)] kCatGJ) ⟨kCatGJ, "100"⟩ = some 1 ∧
    (SSIdentifierToObject ⟨kCatGJ, "100"⟩
        (SSMakeObjectMap [some (demoStar "W1" ⟨kCatGJ, "100"⟩),
          some (demoStar "W2" ⟨kCatGJ, "100"⟩)] kCatGJ)
        [some (demoStar "W1" ⟨kCatGJ, "100"⟩),
          some (demoStar "W2" ⟨kCatGJ, "100"⟩)]).1 =
      some (some (demoStar "W1" ⟨kCatGJ, "100"⟩)) :=
  SSMakeObjectMap_first_wins
    [some (demoStar "W1" ⟨kCatGJ, "100"⟩), some (demoStar "W2" ⟨kCatGJ, "100"⟩)]
    kCatGJ ⟨kCatGJ, "100"⟩ 0 1
    (demoStar "W1" ⟨kCatGJ, "100"⟩) (demoStar "W2" ⟨kCatGJ, "100"⟩)
    (by omega) (by decide) (by decide) (by decide) (by decide) (by decide) (by decide)
    (fun n h => absurd h (Nat.not_lt_zero n))

/-- Claim C10: every slot stored by `SSMakeObjectMap` lies between 1 and
the collection size, and `SSIdentifierToObject` over a map built from
the same collection never accesses the vector out of bounds (the first
component is never the out-of-bounds marker `none`: it is the in-bounds
element for a positive slot and the null pointer for an absent
identifier). -/
theorem SSObjectMap_slots_safe {α : Type} (objects : SSObjectVec α)
    (cat : SSCatalog) (ident : SSIdentifier) :
    (∀ p ∈ SSMakeObjectMap objects cat, 1 ≤ p.2 ∧ p.2 ≤ objects.length) ∧
    (SSIdentifierToObject ident (SSMakeObjectMap objects cat) objects).1 ≠ none := by
  constructor
  · intro p hp
    rcases makeMapLoop_mem cat objects 0 [] p hp with h | h
    · cases h
    · omega
  · unfold SSIdentifierToObject mapBracket
    cases hf : mapFind (SSMakeObjectMap objects cat) ident with
    | none =>
      simp
    | some v =>
      have hmem := mapFind_mem hf
      rcases makeMapLoop_mem cat objects 0 [] _ hmem with h | h
      · cases h
      · have hv : 0 < v := by omega
        have hvl : v - 1 < objects.length := by omega
        simp only [gt_iff_lt, hv, if_true]
        rw [List.get?_eq_get hvl]
        simp

/-- Witness for `SSObjectMap_slots_safe` on a one-record collection. -/
theorem SSObjectMap_slots_safe_witness :
    (1 ≤ ((⟨kCatGJ, "100"⟩ : SSIdentifier), 1).2 ∧
      ((⟨kCatGJ, "100"⟩ : SSIdentifier), 1).2 ≤
        ([some (demoStar "W3" ⟨kCatGJ, "100"⟩)] : SSObjectVec ℚ).length) ∧
    (SSIdentifierToObject ⟨kCatGJ, "100"⟩
        (SSMakeObjectMap [some (demoStar "W3" ⟨kCatGJ, "100"⟩)] kCatGJ)
        [some (demoStar "W3" ⟨kCatGJ, "100"⟩)]).1 ≠ none :=
  ⟨(SSObjectMap_slots_safe [some (demoStar "W3" ⟨kCatGJ, "100"⟩)] kCatGJ
      ⟨kCatGJ, "100"⟩).1 (⟨kCatGJ, "100"⟩, 1) (by decide),
   (SSObjectMap_slots_safe [some (demoStar "W3" ⟨kCatGJ, "100"⟩)] kCatGJ
      ⟨kCatGJ, "100"⟩).2⟩

/-- Claim C4, counterexample: looking up an identifier that is absent
from the Object Map mutates the map — `operator[]` value-initialises and
inserts the missing key, so the map after the lookup differs from the
map before it. -/
theorem object_map_lookup_mutates_counterexample :
    (SSIdentifierToObject ⟨kCatGJ, "100"⟩ ([] : SSObjectMap)
      ([] : SSObjectVec ℚ)).2 ≠ ([] : SSObjectMap) := by
  decide

/-- Claim C4 (amended): a lookup via `SSIdentifierToObject` leaves the
map unchanged when the identifier is present; when it is absent the
lookup appends a zero ("no match") entry for it, after which every
lookup still returns exactly what it returned on the original map — the
map is observationally read-only but not physically immutable. -/
theorem SSIdentifierToObject_map_effect {α : Type} (ident : SSIdentifier)
    (m : SSObjectMap) (objects : SSObjectVec α) :
    ((mapFind m ident).isSome = true → (SSIdentifierToObject ident m objects).2 = m) ∧
    (mapFind m ident = none →
      (SSIdentifierToObject ident m objects).2 = m ++ [(ident, 0)] ∧
      ∀ j, (SSIdentifierToObject j (m ++ [(ident, 0)]) objects).1 =
        (SSIdentifierToObject j m objects).1) := by
  constructor
  · intro hs
    cases hf : mapFind m ident with
    | none => rw [hf] at hs; cases hs
    | some v =>
      unfold SSIdentifierToObject mapBracket
      rw [hf]
      by_cases hv : v > 0
      · simp [hv]
      · simp [hv]
  · intro hf
    constructor
    · unfold SSIdentifierToObject mapBracket
      rw [hf]
      simp
    · intro j
      unfold SSIdentifierToObject mapBracket
      rw [mapFind_append]
      cases hmj : mapFind m j with
      | some v =>
        by_cases hv0 : v > 0 <;> simp [hv0]
      | none =>
        by_cases hj : ident = j
        · simp [hj]
        · simp [hj]

/-- Witness for `SSIdentifierToObject_map_effect`: a present identifier
leaves the map untouched; an absent one appends its zero entry. -/
theorem SSIdentifierToObject_map_effect_witness :
    (SSIdentifierToObject ⟨kCatGJ, "100"⟩ [(⟨kCatGJ, "100"⟩, 1)]
        [some (demoStar "W4" ⟨kCatGJ, "100"⟩)]).2 = [(⟨kCatGJ, "100"⟩, 1)] ∧
    (SSIdentifierToObject ⟨kCatGJ, "200"⟩ ([] : SSObjectMap)
        ([] : SSObjectVec ℚ)).2 = [] ++ [(⟨kCatGJ, "200"⟩, 0)] :=
  ⟨(SSIdentifierToObject_map_effect ⟨kCatGJ, "100"⟩ [(⟨kCatGJ, "100"⟩, 1)]
      [some (demoStar "W4" ⟨kCatGJ, "100"⟩)]).1 (by decide),
   ((SSIdentifierToObject_map_effect ⟨kCatGJ, "200"⟩ ([] : SSObjectMap)
      ([] : SSObjectVec ℚ)).2 (by decide)).1⟩

/-! ### Component Expander lemmas (claims C6 and C8) -/

theorem fromString_GJ_data (s : String) (r : List Char)
    (h : s.data = 'G' :: 'J' :: ' ' :: r) :
    SSIdentifier.fromString s = ⟨kCatGJ, String.mk r⟩ := by
  unfold SSIdentifier.fromString
  rw [h]
  simp [List.take, List.drop]

theorem fromString_GJ_concat (strGJ strC : String) :
    SSIdentifier.fromString ("GJ " ++ strGJ ++ strC) =
      ⟨kCatGJ, strGJ ++ strC⟩ := by
  have hd : ("GJ " ++ strGJ ++ strC).data = 'G' :: 'J' :: ' ' :: (strGJ ++ strC).data := by
    rw [String.data_append, String.data_append, String.data_append]
    rfl
  rw [fromString_GJ_data _ _ hd]

theorem mem_SSAddIdentifier_self (i : SSIdentifier) (l : List SSIdentifier)
    (hv : i.isValid = true) : i ∈ SSAddIdentifier i l := by
  unfold SSAddIdentifier
  by_cases hc : l.contains i = true
  · have : i ∈ l := List.elem_iff.mp hc
    rw [hv, hc]
    simpa using this
  · have hcf : l.contains i = false := by
      cases h : l.contains i
      · rfl
      · exact absurd h hc
    rw [hv, hcf]
    simp

theorem mem_identInsert_self (x : SSIdentifier) (l : List SSIdentifier) :
    x ∈ identInsert x l := by
  induction l with
  | nil => exact List.mem_singleton.mpr rfl
  | cons y ys ih =>
    unfold identInsert
    by_cases h : identLE x y = true
    · rw [if_pos h]
      exact List.mem_cons_self _ _
    · rw [if_neg h]
      exact List.mem_cons_of_mem _ ih

theorem mem_identInsert_of_mem (x y : SSIdentifier) (l : List SSIdentifier)
    (h : y ∈ l) : y ∈ identInsert x l := by
  induction l with
  | nil => cases h
  | cons z zs ih =>
    unfold identInsert
    by_cases hle : identLE x z = true
    · rw [if_pos hle]
      exact List.mem_cons_of_mem _ h
    · rw [if_neg hle]
      rcases List.mem_cons.mp h with h' | h'
      · exact h' ▸ List.mem_cons_self _ _
      · exact List.mem_cons_of_mem _ (ih h')

theorem mem_identSort (x : SSIdentifier) (l : List SSIdentifier) (h : x ∈ l) :
    x ∈ identSort l := by
  induction l with
  | nil => cases h
  | cons y ys ih =>
    unfold identSort
    rcases List.mem_cons.mp h with h' | h'
    · exact h' ▸ mem_identInsert_self _ _
    · exact mem_identInsert_of_mem _ _ _ (ih h')

theorem mkGJStar_ident_mem {α : Type} (pStar : SSStar α) (strGJ strC : String) :
    SSIdentifier.fromString ("GJ " ++ strGJ ++ strC) ∈
      (mkGJStar pStar strGJ strC).idents := by
  unfold mkGJStar
  refine mem_identSort _ _ ?_
  refine mem_SSAddIdentifier_self _ _ ?_
  rw [fromString_GJ_concat]
  rfl

theorem mkGJStar_fields {α : Type} (pStar : SSStar α) (strGJ strC : String) :
    (mkGJStar pStar strGJ strC).names = pStar.names ∧
    (mkGJStar pStar strGJ strC).coords = pStar.coords ∧
    (mkGJStar pStar strGJ strC).motion = pStar.motion ∧
    (mkGJStar pStar strGJ strC).vmag = pStar.vmag ∧
    (mkGJStar pStar strGJ strC).bmag = pStar.bmag ∧
    (mkGJStar pStar strGJ strC).parallax = pStar.parallax ∧
    (mkGJStar pStar strGJ strC).specType = pStar.specType :=
  ⟨rfl, rfl, rfl, rfl, rfl, rfl, rfl⟩

theorem addGJ_fold_spec {α : Type} (pStar : SSStar α) (strGJ : String)
    (cs : List Char) (st : GJState α) :
    cs.foldl (fun s c => addGJStar pStar strGJ (String.mk [c]) s) st =
      { heap := st.heap ++ cs.map (fun c => mkGJStar pStar strGJ (String.mk [c]))
        stars := st.stars ++ List.range' st.heap.length cs.length } := by
  induction cs generalizing st with
  | nil =>
    cases st
    simp [List.range']
  | cons c cs' ih =>
    rw [List.foldl_cons, ih]
    unfold addGJStar
    cases st with
    | mk heap stars =>
      simp [List.range'_succ, List.append_assoc, List.singleton_append,
        List.length_append]

/-- Claim C6: with a components string of fewer than 2 characters,
`addGJComponentStars` appends exactly one entry, whose GJ identifier is
the catalog prefix, the base number, then the components string, and
returns 1; with 2 or more characters it appends one entry per character,
each carrying the identifier of the base number followed by that single
character, and returns the components string's length — so the output
vector grows by exactly the component-expansion count. -/
theorem addGJComponentStars_spec {α : Type} (pStar : SSStar α)
    (strGJ comps : String) (st : GJState α) :
    (if comps.length < 2 then
      (addGJComponentStars pStar strGJ comps st).1 = 1 ∧
      (addGJComponentStars pStar strGJ comps st).2.heap =
        st.heap ++ [mkGJStar pStar strGJ comps] ∧
      (addGJComponentStars pStar strGJ comps st).2.stars =
        st.stars ++ [st.heap.length]
    else
      (addGJComponentStars pStar strGJ comps st).1 = comps.length ∧
      (addGJComponentStars pStar strGJ comps st).2.heap =
        st.heap ++ comps.data.map (fun c => mkGJStar pStar strGJ (String.mk [c])) ∧
      (addGJComponentStars pStar strGJ comps st).2.stars =
        st.stars ++ List.range' st.heap.length comps.length) ∧
    (addGJComponentStars pStar strGJ comps st).2.stars.length =
      st.stars.length + (addGJComponentStars pStar strGJ comps st).1 ∧
    (∀ c : Char, SSIdentifier.fromString ("GJ " ++ strGJ ++ String.mk [c]) ∈
      (mkGJStar pStar strGJ (String.mk [c])).idents) ∧
    SSIdentifier.fromString ("GJ " ++ strGJ ++ comps) ∈
      (mkGJStar pStar strGJ comps).idents := by
  refine ⟨?_, ?_, fun c => mkGJStar_ident_mem pStar strGJ (String.mk [c]),
    mkGJStar_ident_mem pStar strGJ comps⟩
  · unfold addGJComponentStars
    by_cases h : comps.length < 2
    · simp only [if_pos h]
      refine ⟨?_, ?_, ?_⟩ <;> first | rfl | trivial
    · simp only [if_neg h]
      rw [addGJ_fold_spec]
      refine ⟨?_, ?_, ?_⟩ <;> first | rfl | trivial
  · unfold addGJComponentStars
    by_cases h : comps.length < 2
    · simp only [if_pos h]
      show (st.stars ++ [st.heap.length]).length = st.stars.length + 1
      simp
    · simp only [if_neg h]
      rw [addGJ_fold_spec]
      show (st.stars ++ List.range' st.heap.length comps.data.length).length =
        st.stars.length + comps.length
      simp only [List.length_append, List.length_range']
      rfl

/-- Claim C8: the entries emitted by the component expander are fresh,
pairwise-distinct heap cells — mutating the cell at one emitted address
leaves the cell at every other emitted address unchanged — and every
emitted cell is a copy of the source entry in all fields except the
identifier list. -/
theorem addGJStar_deep_copy {α : Type} (pStar : SSStar α)
    (strGJ comps : String) (st : GJState α) :
    ((addGJComponentStars pStar strGJ comps st).2.stars.drop st.stars.length).Nodup ∧
    (∀ a ∈ (addGJComponentStars pStar strGJ comps st).2.stars.drop st.stars.length,
     ∀ b ∈ (addGJComponentStars pStar strGJ comps st).2.stars.drop st.stars.length,
      a ≠ b → ∀ v : SSStar α,
        ((addGJComponentStars pStar strGJ comps st).2.heap.set a v).get? b =
          (addGJComponentStars pStar strGJ comps st).2.heap.get? b) ∧
    (∀ a ∈ (addGJComponentStars pStar strGJ comps st).2.stars.drop st.stars.length,
      ∃ cell : SSStar α,
        (addGJComponentStars pStar strGJ comps st).2.heap.get? a = some cell ∧
        cell.names = pStar.names ∧ cell.coords = pStar.coords ∧
        cell.motion = pStar.motion ∧ cell.vmag = pStar.vmag ∧
        cell.bmag = pStar.bmag ∧ cell.parallax = pStar.parallax ∧
        cell.specType = pStar.specType) := by
  have hspec := (addGJComponentStars_spec pStar strGJ comps st).1
  by_cases h : comps.length < 2
  · rw [if_pos h] at hspec
    obtain ⟨-, hheap, hstars⟩ := hspec
    rw [hheap, hstars, List.drop_left]
    refine ⟨List.nodup_singleton _, ?_, ?_⟩
    · intro a ha b hb hab v
      rw [List.mem_singleton] at ha hb
      exact absurd (ha.trans hb.symm) hab
    · intro a ha
      rw [List.mem_singleton] at ha
      subst ha
      refine ⟨mkGJStar pStar strGJ comps, ?_, mkGJStar_fields pStar strGJ comps⟩
      exact List.get?_concat_length st.heap _
  · rw [if_neg h] at hspec
    obtain ⟨-, hheap, hstars⟩ := hspec
    rw [hheap, hstars, List.drop_left]
    refine ⟨List.nodup_range' _ _, ?_, ?_⟩
    · intro a ha b hb hab v
      rw [List.get?_set_ne _ _ hab]
    · intro a ha
      rw [List.mem_range'_1] at ha
      obtain ⟨hal, har⟩ := ha
      have ht : a - st.heap.length < comps.data.length := by
        have : comps.length = comps.data.length := rfl
        omega
      obtain ⟨c, hc⟩ : ∃ c, comps.data.get? (a - st.heap.length) = some c := by
        rw [List.get?_eq_get ht]
        exact ⟨_, rfl⟩
      refine ⟨mkGJStar pStar strGJ (String.mk [c]), ?_,
        mkGJStar_fields pStar strGJ (String.mk [c])⟩
      rw [List.get?_append_right hal, List.get?_map, hc]
      rfl

/-- Witness for `addGJStar_deep_copy` at components string `"AB"` over an
empty initial state: the two emitted addresses are distinct and
overwriting one cell leaves the other unchanged. -/
theorem addGJStar_deep_copy_witness :
    (((addGJComponentStars (demoStar "S" ⟨kCatHD, "7"⟩) "1001" "AB"
        ⟨[], []⟩).2.stars.drop ([] : List Nat).length).Nodup) ∧
    (((addGJComponentStars (demoStar "S" ⟨kCatHD, "7"⟩) "1001" "AB"
        ⟨[], []⟩).2.heap.set 0 (demoStar "X" ⟨kCatHD, "8"⟩)).get? 1 =
      (addGJComponentStars (demoStar "S" ⟨kCatHD, "7"⟩) "1001" "AB"
        ⟨[], []⟩).2.heap.get? 1) := by
  have h := addGJStar_deep_copy (demoStar "S" ⟨kCatHD, "7"⟩) "1001" "AB" ⟨[], []⟩
  exact ⟨h.1, h.2.1 0 (by decide) 1 (by decide) (by decide)
    (demoStar "X" ⟨kCatHD, "8"⟩)⟩

/-! ### Fusion Engine and Name Resolver theorems (claims C2 and C3) -/

theorem SSIdentifiersToNames_nil (nameMap : SSIdentifierNameMap) :
    SSIdentifiersToNames [] nameMap = [] := by
  unfold SSIdentifiersToNames
  induction nameMap with
  | nil => rfl
  | cons p rest ih =>
    rw [List.filterMap_cons]
    simpa using ih

/-- Claim C2: the code at the failing input.  A provisional entry with
finite radial velocity 1 is cross-matched against a reference entry
carrying finite radial velocity 2; the merge step *overwrites* the
provisional radial velocity with the reference value 2, contradicting
the claim (and the code's own comment "but not radial velocity!") that
the provisional value is retained. -/
theorem crossMatch_radial_velocity_overwritten :
    (crossMatchStep (rvStar 1 ⟨kCatGJ, "100"⟩)
        (SSMakeObjectMap [some (rvStar 2 ⟨kCatGJ, "100"⟩)] kCatGJ)
        [some (rvStar 2 ⟨kCatGJ, "100"⟩)] []).1.motion.rad =
      ((2 : ℚ) : WithTop ℚ) ∧
    ((2 : ℚ) : WithTop ℚ) ≠ ((1 : ℚ) : WithTop ℚ) ∧
    (rvStar 1 ⟨kCatGJ, "100"⟩).motion.rad = ((1 : ℚ) : WithTop ℚ) := by
  refine ⟨by decide, by decide, by decide⟩

/-- Claim C3, counterexample: an entry whose cross-match fails, but
whose own identifier set does have a name in the table.  The claim says
the name list is derived from the entry's final identifier set whether
or not the match succeeded, so this entry should receive the name
`"Sirius"`; the code derives names from a local identifier vector that
stays empty on a failed match, so the entry's names stay empty. -/
theorem name_resolver_unmatched_counterexample :
    (crossMatchStep (demoStar "" ⟨kCatHD, "7"⟩) ([] : SSObjectMap)
        ([] : SSObjectVec ℚ) [(⟨kCatHD, "7"⟩, "Sirius")]).1.names = [""] ∧
    SSIdentifiersToNames (demoStar "" ⟨kCatHD, "7"⟩).idents
        [(⟨kCatHD, "7"⟩, "Sirius")] = ["Sirius"] ∧
    ("Sirius" : String) ≠ "" := by
  refine ⟨by decide, by decide, by decide⟩

/-- Claim C3 (amended): for a cross-matched entry the Name Resolver
derives the name list from the entry's final (merged) identifier set —
replacing the names when at least one is found and leaving them
untouched otherwise; for an entry whose cross-match failed, names are
derived from an empty identifier vector, so no name is ever found and
the entry is returned completely unchanged, even when its own
identifiers do have names in the table. -/
theorem crossMatchStep_names {α : Type} (pStar : SSStar α) (m : SSObjectMap)
    (gjACStars : SSObjectVec α) (nameMap : SSIdentifierNameMap) :
    match (SSIdentifierToObject (pStar.getIdentifier kCatGJ) m gjACStars).1 with
    | some (some _) =>
        (crossMatchStep pStar m gjACStars nameMap).1.names =
          (if SSIdentifiersToNames
              (crossMatchStep pStar m gjACStars nameMap).1.idents nameMap = []
           then pStar.names
           else SSIdentifiersToNames
              (crossMatchStep pStar m gjACStars nameMap).1.idents nameMap)
    | _ => (crossMatchStep pStar m gjACStars nameMap).1 = pStar := by
  rcases hr : (SSIdentifierToObject (pStar.getIdentifier kCatGJ) m gjACStars).1
    with - | (- | pAC)
  · show (crossMatchStep pStar m gjACStars nameMap).1 = pStar
    simp only [crossMatchStep, hr]
    simp [SSIdentifiersToNames_nil]
  · show (crossMatchStep pStar m gjACStars nameMap).1 = pStar
    simp only [crossMatchStep, hr]
    simp [SSIdentifiersToNames_nil]
  · show (crossMatchStep pStar m gjACStars nameMap).1.names = _
    simp only [crossMatchStep, hr]
    by_cases hn : SSIdentifiersToNames
        (identSort (SSAddIdentifier (pAC.getIdentifier kCatGCVS)
          (SSAddIdentifier (pAC.getIdentifier kCatFlamsteed)
            (SSAddIdentifier (pAC.getIdentifier kCatBayer)
              (SSAddIdentifier (pAC.getIdentifier kCatHIP) pStar.idents)))))
        nameMap = []
    · simp [hn]
    · simp [hn, List.length_pos, hn]

/-- Claim C9: when the input file cannot be opened (`none`), both import
functions return a count of 0 and leave the output collection exactly as
it was, raising nothing. -/
theorem import_open_failure (env : ImportEnv) (nameMap : SSIdentifierNameMap)
    (gjACStars hipStars : SSObjectVec ℝ) (st st' : GJState ℝ) :
    SSImportGJCNS3 env none nameMap gjACStars st = (0, st) ∧
    SSImportGJAC env none hipStars st' = (0, st') :=
  ⟨rfl, rfl⟩

/-! ### Proper-motion conversion theorems (claim C7) -/

theorem atan2pi_mul_sin_cos (pm pa : ℝ) (hpm : 0 < pm)
    (hpa : pa ∈ Set.Ico 0 (2 * Real.pi)) :
    atan2pi (pm * Real.sin pa) (pm * Real.cos pa) = pa := by
  obtain ⟨hpa0, hpa2⟩ := hpa
  have hπ := Real.pi_pos
  by_cases hle : pa ≤ Real.pi
  · have harg : Complex.arg ⟨pm * Real.cos pa, pm * Real.sin pa⟩ = pa := by
      have hz : (⟨pm * Real.cos pa, pm * Real.sin pa⟩ : ℂ) =
          (pm : ℂ) * (Complex.cos (pa : ℝ) + Complex.sin (pa : ℝ) * Complex.I) := by
        rw [Complex.mk_eq_add_mul_I, ← Complex.ofReal_cos, ← Complex.ofReal_sin]
        push_cast
        ring
      rw [hz, Complex.arg_real_mul _ hpm]
      exact Complex.arg_cos_add_sin_mul_I ⟨by linarith, hle⟩
    have hsin : 0 ≤ pm * Real.sin pa :=
      mul_nonneg hpm.le (Real.sin_nonneg_of_nonneg_of_le_pi hpa0 hle)
    unfold atan2pi
    rw [if_neg (not_lt.mpr hsin), harg]
  · push_neg at hle
    have hθ1 : -Real.pi < pa - 2 * Real.pi := by linarith
    have hθ2 : pa - 2 * Real.pi < 0 := by linarith
    have hcos : Real.cos pa = Real.cos (pa - 2 * Real.pi) :=
      (Real.cos_sub_two_pi pa).symm
    have hsin : Real.sin pa = Real.sin (pa - 2 * Real.pi) :=
      (Real.sin_sub_two_pi pa).symm
    have harg : Complex.arg ⟨pm * Real.cos pa, pm * Real.sin pa⟩ =
        pa - 2 * Real.pi := by
      have hz : (⟨pm * Real.cos pa, pm * Real.sin pa⟩ : ℂ) =
          (pm : ℂ) * (Complex.cos ((pa - 2 * Real.pi : ℝ)) +
            Complex.sin ((pa - 2 * Real.pi : ℝ)) * Complex.I) := by
        rw [Complex.mk_eq_add_mul_I, ← Complex.ofReal_cos, ← Complex.ofReal_sin,
          ← hcos, ← hsin]
        push_cast
        ring
      rw [hz, Complex.arg_real_mul _ hpm]
      exact Complex.arg_cos_add_sin_mul_I ⟨hθ1, by linarith⟩
    have hsneg : pm * Real.sin pa < 0 := by
      rw [hsin]
      exact mul_neg_of_pos_of_neg hpm (Real.sin_neg_of_neg_of_neg_pi_lt hθ2 hθ1)
    unfold atan2pi
    rw [if_pos hsneg, harg]
    ring

/-- Claim C7: the two proper-motion representations are mutual inverses.
For every total proper motion `pm > 0`, position angle `pa ∈ [0, 2π)`,
and declination `|dec| < π/2`, converting with `pm_pa_to_pmra_pmdec` and
back with `pmra_pmdec_to_pm_pa` (same declination) recovers `(pm, pa)`
exactly, the recovered position angle lying in `[0, 2π)` via `atan2pi`. -/
theorem pm_roundtrip (pm pa dec : ℝ) (hpm : 0 < pm)
    (hpa : pa ∈ Set.Ico 0 (2 * Real.pi)) (hdec : |dec| < Real.pi / 2) :
    pmra_pmdec_to_pm_pa (pm_pa_to_pmra_pmdec pm pa dec).1
      (pm_pa_to_pmra_pmdec pm pa dec).2 dec = (pm, pa) ∧
    (pmra_pmdec_to_pm_pa (pm_pa_to_pmra_pmdec pm pa dec).1
      (pm_pa_to_pmra_pmdec pm pa dec).2 dec).2 ∈ Set.Ico 0 (2 * Real.pi) := by
  have hcos : Real.cos dec ≠ 0 := by
    have h := abs_lt.mp hdec
    exact (Real.cos_pos_of_mem_Ioo ⟨h.1, h.2⟩).ne'
  have h1 : (pm_pa_to_pmra_pmdec pm pa dec).1 * Real.cos dec = pm * Real.sin pa := by
    unfold pm_pa_to_pmra_pmdec
    exact div_mul_cancel₀ _ hcos
  have h2 : (pm_pa_to_pmra_pmdec pm pa dec).2 = pm * Real.cos pa := rfl
  have hsum : pm * Real.sin pa * (pm * Real.sin pa) +
      pm * Real.cos pa * (pm * Real.cos pa) = pm ^ 2 := by
    have h := Real.sin_sq_add_cos_sq pa
    nlinarith [h]
  have hmain : pmra_pmdec_to_pm_pa (pm_pa_to_pmra_pmdec pm pa dec).1
      (pm_pa_to_pmra_pmdec pm pa dec).2 dec = (pm, pa) := by
    unfold pmra_pmdec_to_pm_pa
    rw [h1, h2]
    show (Real.sqrt (pm * Real.sin pa * (pm * Real.sin pa) +
        pm * Real.cos pa * (pm * Real.cos pa)),
      atan2pi (pm * Real.sin pa) (pm * Real.cos pa)) = (pm, pa)
    rw [hsum, Real.sqrt_sq hpm.le, atan2pi_mul_sin_cos pm pa hpm hpa]
  refine ⟨hmain, ?_⟩
  rw [hmain]
  exact hpa

/-- Witness for `pm_roundtrip` at `pm = 1`, `pa = 0`, `dec = 0`. -/
theorem pm_roundtrip_witness :
    pmra_pmdec_to_pm_pa (pm_pa_to_pmra_pmdec 1 0 0).1
      (pm_pa_to_pmra_pmdec 1 0 0).2 0 = (1, 0) ∧
    (pmra_pmdec_to_pm_pa (pm_pa_to_pmra_pmdec 1 0 0).1
      (pm_pa_to_pmra_pmdec 1 0 0).2 0).2 ∈ Set.Ico 0 (2 * Real.pi) :=
  pm_roundtrip 1 0 0 one_pos ⟨le_refl 0, mul_pos two_pos Real.pi_pos⟩
    (by rw [abs_zero]; exact half_pos Real.pi_pos)

end SSCore
